import Mathlib

/-!
Verification of the Spider Camera automatic framing and motion control
engine against its natural-language specification.

The repository ships the React frontend under `src/frontend` together with
the frontend API/WebSocket service layer; the FastAPI backend
(`camera_controller.py`, `tracker.py`, `config.py`, ...) is described by
`backend/README.md` but its source is not part of the tree.  Definitions
below therefore come from two places:

* frontend code embedded directly from the source files
  (`CameraControl.jsx` `moveCamera`, `websocket.js` `autoReconnect`,
  `useCamera` / `App.jsx` initial state, `StudioLayout.jsx` `PersonModel`);
* control-core operations marked `Modelled from the spec:` in their doc
  comment, translated faithfully from the specification text because the
  backend module that implements them is absent from `src/`.

Coordinates, confidences and durations are modelled with exact rationals.
-/

namespace SpiderCamera

/-- Camera pose in studio coordinates, meters on each axis
(spec section 3, `Pose` as `x, y, z`). -/
structure Pose where
  x : ℚ
  y : ℚ
  z : ℚ
deriving DecidableEq, Repr

/-- Positional envelope: per-axis hard bounds on the pose
(spec section 3, `x ∈ [xmin,xmax]`, `y ∈ [ymin,ymax]`, `z ∈ [zmin,zmax]`). -/
structure Envelope where
  xmin : ℚ
  xmax : ℚ
  ymin : ℚ
  ymax : ℚ
  zmin : ℚ
  zmax : ℚ
deriving DecidableEq, Repr

/-- Default envelope from the spec: x,z in [-5,5], y in [1,4]. -/
def defaultEnvelope : Envelope :=
  { xmin := -5, xmax := 5, ymin := 1, ymax := 4, zmin := -5, zmax := 5 }

/-- An envelope is well formed when each axis interval is nonempty. -/
def Envelope.Wf (e : Envelope) : Prop :=
  e.xmin ≤ e.xmax ∧ e.ymin ≤ e.ymax ∧ e.zmin ≤ e.zmax

instance (e : Envelope) : Decidable e.Wf := by
  unfold Envelope.Wf; infer_instance

/-- Clamp a scalar into the interval [lo, hi]
(the JS idiom `Math.max(lo, Math.min(hi, v))`). -/
def clampQ (lo hi v : ℚ) : ℚ := max lo (min hi v)

/-- Clamp a pose componentwise into the envelope. -/
def Envelope.clampPose (e : Envelope) (p : Pose) : Pose :=
  { x := clampQ e.xmin e.xmax p.x
  , y := clampQ e.ymin e.ymax p.y
  , z := clampQ e.zmin e.zmax p.z }

/-- Membership of a pose in the envelope. -/
def Pose.InEnvelope (p : Pose) (e : Envelope) : Prop :=
  e.xmin ≤ p.x ∧ p.x ≤ e.xmax ∧
  e.ymin ≤ p.y ∧ p.y ≤ e.ymax ∧
  e.zmin ≤ p.z ∧ p.z ≤ e.zmax

instance (p : Pose) (e : Envelope) : Decidable (p.InEnvelope e) := by
  unfold Pose.InEnvelope; infer_instance

/-- Cap a requested per-tick displacement to magnitude at most `vdt`
(spec section 4.4: cap the per-tick displacement to `maxVelocity * dt`). -/
def capDisp (vdt delta : ℚ) : ℚ := max (-vdt) (min vdt delta)

/-- Modelled from the spec: one axis of the Motion Planner `advance`
(backend `camera_controller.py` is absent from `src/`).  Per axis the
displacement `target - actual` is capped to `maxVelocity * dt` and the
result is clamped to the axis bounds as a final safety net
(spec section 4.4). -/
def advance1D (lo hi vdt target actual : ℚ) : ℚ :=
  clampQ lo hi (actual + capDisp vdt (target - actual))

/-- Modelled from the spec: the Motion Planner contract
`advance(target, actual, dt) -> Pose`, applied componentwise
(backend `camera_controller.py` is absent from `src/`). -/
def advance (e : Envelope) (maxVelocity dt : ℚ) (target actual : Pose) : Pose :=
  { x := advance1D e.xmin e.xmax (maxVelocity * dt) target.x actual.x
  , y := advance1D e.ymin e.ymax (maxVelocity * dt) target.y actual.y
  , z := advance1D e.zmin e.zmax (maxVelocity * dt) target.z actual.z }

/-- Per-axis movement limits as served by the backend `/camera/limits`
endpoint and consumed by `CameraControl.jsx` (`limits.x.min`, ...). -/
structure AxisLimits where
  low : ℚ
  high : ℚ
deriving DecidableEq, Repr

/-- The three-axis limits object of `CameraControl.jsx`. -/
structure Limits where
  x : AxisLimits
  y : AxisLimits
  z : AxisLimits
deriving DecidableEq, Repr

/-- Limits with nonempty intervals on every axis. -/
def Limits.Wf (l : Limits) : Prop :=
  l.x.low ≤ l.x.high ∧ l.y.low ≤ l.y.high ∧ l.z.low ≤ l.z.high

instance (l : Limits) : Decidable l.Wf := by
  unfold Limits.Wf; infer_instance

/-- Membership of a pose in the limits box. -/
def Pose.InLimits (p : Pose) (l : Limits) : Prop :=
  l.x.low ≤ p.x ∧ p.x ≤ l.x.high ∧
  l.y.low ≤ p.y ∧ p.y ≤ l.y.high ∧
  l.z.low ≤ p.z ∧ p.z ≤ l.z.high

instance (p : Pose) (l : Limits) : Decidable (p.InLimits l) := by
  unfold Pose.InLimits; infer_instance

/-- Movement axes of the directional controls in `CameraControl.jsx`. -/
inductive Axis
  | x
  | y
  | z
deriving DecidableEq, Repr

/-- Embeds `moveCamera(axis, direction)` of
`frontend/src/components/CameraControl.jsx` lines 116-145: step 0.5 m on
the chosen axis, then clamp each coordinate to the loaded limits when
`limits` is non-null; with no limits loaded the position is not clamped. -/
def moveCamera (limits : Option Limits) (position : Pose) (axis : Axis)
    (direction : ℚ) : Pose :=
  let step : ℚ := 1/2
  let newPosition : Pose :=
    match axis with
    | Axis.x => { position with x := position.x + direction * step }
    | Axis.y => { position with y := position.y + direction * step }
    | Axis.z => { position with z := position.z + direction * step }
  match limits with
  | none => newPosition
  | some l =>
      { x := clampQ l.x.low l.x.high newPosition.x
      , y := clampQ l.y.low l.y.high newPosition.y
      , z := clampQ l.z.low l.z.high newPosition.z }

/-- Operating modes (spec section 3, `Mode`): exactly one of
manual, speaker, group, wide. -/
inductive Mode
  | manual
  | speaker
  | group
  | wide
deriving DecidableEq, Repr

/-- Center point of a tracked subject in frame pixels. -/
structure Center where
  x : ℚ
  y : ℚ
deriving DecidableEq, Repr

/-- Tracked subject as read by the Target Resolver (spec section 3,
`TrackedSubject`): stable id, frame center, detection confidence,
audio-activity speaking flag. -/
structure Subject where
  id : ℕ
  center : Center
  confidence : ℚ
  isSpeaking : Bool
deriving DecidableEq, Repr

/-- Configuration surface of the control core (spec section 6): envelope,
velocity limit, tick duration, frame geometry, fixed framing constants,
wide-shot pose, association threshold and subject grace period. -/
structure Config where
  env : Envelope
  maxVelocity : ℚ
  dt : ℚ
  frameWidth : ℚ
  frameSpan : ℚ
  headY : ℚ
  closeZ : ℚ
  groupNearZ : ℚ
  widePose : Pose
  assocThreshold : ℚ
  graceTicks : ℕ
deriving DecidableEq, Repr

/-- Default configuration: envelope defaults from the spec, maxVelocity
1.0 m/s, 30 Hz ticks, a 1280-pixel frame mapped onto an 8 m span (the
mapping `((center.x - 640) / 640) * 4` of `StudioLayout.jsx`
`PersonModel`), association threshold 15 percent of frame width and a
1-second grace period at the nominal 30 Hz frame rate. -/
def defaultConfig : Config :=
  { env := defaultEnvelope
  , maxVelocity := 1
  , dt := 1/30
  , frameWidth := 1280
  , frameSpan := 8
  , headY := 17/10
  , closeZ := -2
  , groupNearZ := -2
  , widePose := { x := 0, y := 3, z := -4 }
  , assocThreshold := 192
  , graceTicks := 30 }

/-- Preference used by speaker mode to pick a subject, as a reflexive
total comparison: `prefGE s t` holds when `s` is at least as good a pick
as `t`.  A speaking subject beats a non-speaking one regardless of
confidence; within the same speaking flag higher confidence wins; equal
confidence is broken toward the lowest id (oldest track)
(spec section 4.3, speaker). -/
def prefGE (s t : Subject) : Bool :=
  if s.isSpeaking = t.isSpeaking then
    if s.confidence = t.confidence then decide (s.id ≤ t.id)
    else decide (t.confidence < s.confidence)
  else s.isSpeaking

/-- Modelled from the spec: subject selection of the Target Resolver in
speaker mode (backend `camera_controller.py` is absent from `src/`): the
best subject of the list under `prefGE`, keeping the earlier element on
exact ties. -/
def selectSubject : List Subject → Option Subject
  | [] => none
  | s :: rest =>
      some (rest.foldl (fun best t => if prefGE best t then best else t) s)

/-- Modelled from the spec: Target Resolver, speaker mode (backend
`camera_controller.py` is absent from `src/`).  With no subjects the last
target is held; otherwise the selected subject's horizontal center
fraction `cx` of frame width maps to `x = (cx - 0.5) * frameSpan`, `y` is
the head-height constant, `z` the close framing depth, and the result is
clamped to the envelope before returning (spec section 4.3). -/
def resolveSpeaker (cfg : Config) (subjects : List Subject)
    (currentTarget : Pose) : Pose :=
  match selectSubject subjects with
  | none => currentTarget
  | some s =>
      cfg.env.clampPose
        { x := (s.center.x / cfg.frameWidth - 1/2) * cfg.frameSpan
        , y := cfg.headY
        , z := cfg.closeZ }

/-- Modelled from the spec: Target Resolver, group mode (backend
`camera_controller.py` is absent from `src/`).  With no subjects the last
target is held; otherwise `x` comes from the horizontal centroid of the
subjects' centers and `z` grows from the near default toward `zmax`
proportionally to the horizontal spread, the whole clamped to the
envelope (spec section 4.3). -/
def resolveGroup (cfg : Config) (subjects : List Subject)
    (currentTarget : Pose) : Pose :=
  match subjects with
  | [] => currentTarget
  | s :: rest =>
      let n : ℚ := (s :: rest).length
      let sum : ℚ := (s :: rest).foldl (fun acc u => acc + u.center.x) 0
      let cx : ℚ := sum / n / cfg.frameWidth
      let hi : ℚ := rest.foldl (fun m u => max m u.center.x) s.center.x
      let lo : ℚ := rest.foldl (fun m u => min m u.center.x) s.center.x
      let spread : ℚ := (hi - lo) / cfg.frameWidth
      cfg.env.clampPose
        { x := (cx - 1/2) * cfg.frameSpan
        , y := cfg.headY
        , z := cfg.groupNearZ + spread * (cfg.env.zmax - cfg.groupNearZ) }

/-- Modelled from the spec: the Target Resolver contract
`resolve(mode, subjects, currentTarget) -> Pose` (backend
`camera_controller.py` is absent from `src/`).  Manual returns the last
operator-commanded pose unchanged; wide ignores subjects and returns the
configured wide-shot pose; speaker and group defer to their resolvers.
The function is total: absence of data degrades to holding the last
target, never to a fault (spec sections 4.3 and 7). -/
def resolve (cfg : Config) (mode : Mode) (subjects : List Subject)
    (currentTarget : Pose) : Pose :=
  match mode with
  | Mode.manual => currentTarget
  | Mode.speaker => resolveSpeaker cfg subjects currentTarget
  | Mode.group => resolveGroup cfg subjects currentTarget
  | Mode.wide => cfg.widePose

/-- Aggregate control state (spec section 3, `ControlState`): current
mode, actual pose, target pose and tick counter. -/
structure ControlState where
  mode : Mode
  actual : Pose
  target : Pose
  tick : ℕ
deriving DecidableEq, Repr

/-- Modelled from the spec: the Mode State Machine transition `setMode`
(backend `camera_controller.py` is absent from `src/`).  Every transition
is legal; entering manual from another mode freezes the target at the
current actual pose, while a manual-to-manual self transition performs no
entry behavior (so a standing operator target survives, as required by
the round-trip property of spec section 8); entering an automatic mode
defers to the resolver from the next tick (spec section 4.2). -/
def setMode (s : ControlState) (m : Mode) : ControlState :=
  match m with
  | Mode.manual =>
      if s.mode = Mode.manual then s
      else { s with mode := Mode.manual, target := s.actual }
  | m => { s with mode := m }

/-- Modelled from the spec: the operator command `setPosition(x,y,z)`
(backend `camera_controller.py` is absent from `src/`): the requested
pose is clamped to the envelope — not rejected with an error — and
becomes the standing target consumed by the next tick
(spec section 6). -/
def setPositionCmd (cfg : Config) (s : ControlState) (p : Pose) :
    ControlState :=
  { s with target := cfg.env.clampPose p }

/-- Modelled from the spec: one control tick (spec section 2): the Target
Resolver reads mode and subjects, then the Motion Planner advances the
actual pose toward the resolved target under the velocity and envelope
constraints, and the tick counter increments. -/
def tickStep (cfg : Config) (subjects : List Subject) (s : ControlState) :
    ControlState :=
  let tgt := resolve cfg s.mode subjects s.target
  { mode := s.mode
  , actual := advance cfg.env cfg.maxVelocity cfg.dt tgt s.actual
  , target := tgt
  , tick := s.tick + 1 }

/-- Run `n` consecutive control ticks, the `k`-th tick reading the subject
list `subjFn k`. -/
def runTicks (cfg : Config) (subjFn : ℕ → List Subject) :
    ℕ → ControlState → ControlState
  | 0, s => s
  | n + 1, s => runTicks cfg subjFn n (tickStep cfg (subjFn s.tick) s)

/-- Preset table: a mapping keyed by unique name (spec section 3,
`Preset`), here an association list of name and pose. -/
abbrev PresetTable : Type := List (String × Pose)

/-- Look a preset up by name. -/
def findPreset (tbl : PresetTable) (name : String) : Option Pose :=
  (List.find? (fun pr => pr.1 == name) tbl).map (fun pr => pr.2)

/-- Modelled from the spec: the Preset Store contract
`apply(name) -> Pose | fails with NotFound when name unknown` (backend
`camera_controller.py` is absent from `src/`).  An unknown name yields
`none` (the recoverable UnknownPreset error surfaced to the caller);
a known name forces Mode to manual and installs the preset pose as the
standing target consumed by the next tick (spec section 4.5). -/
def applyPreset (tbl : PresetTable) (name : String) (s : ControlState) :
    Option ControlState :=
  (findPreset tbl name).map
    (fun p => { s with mode := Mode.manual, target := p })

/-- Raw detection consumed by the repository fusion step (spec section 6):
center coordinates in frame pixels and a confidence. -/
structure RawDetection where
  cx : ℚ
  cy : ℚ
  confidence : ℚ
deriving DecidableEq, Repr

/-- One repository record: a tracked subject together with the count of
consecutive ticks it has gone without an associated detection. -/
structure TrackedRec where
  id : ℕ
  cx : ℚ
  cy : ℚ
  confidence : ℚ
  missCount : ℕ
deriving DecidableEq, Repr

/-- TrackedSubject Repository state: the monotonic id counter and the
current subject records (spec section 4.1). -/
structure TrackState where
  nextId : ℕ
  subjects : List TrackedRec
deriving DecidableEq, Repr

/-- Squared distance between a detection center and a record center
(nearest-center association compares distances, so squares suffice and
stay exact in rationals). -/
def sqDist (d : RawDetection) (r : TrackedRec) : ℚ :=
  (d.cx - r.cx) ^ 2 + (d.cy - r.cy) ^ 2

/-- Nearest record to a detection, keeping the earlier record on exact
distance ties. -/
def nearestRec (subjects : List TrackedRec) (d : RawDetection) :
    Option TrackedRec :=
  subjects.foldl
    (fun best r =>
      match best with
      | none => some r
      | some b => if sqDist d r < sqDist d b then some r else some b)
    none

/-- Modelled from the spec: association of one raw detection during
`upsert` (backend `tracker.py` is absent from `src/`): the detection is
matched to the nearest existing record within the distance threshold and
updates it in place with the miss counter reset; an unmatched detection
spawns a new record under a freshly allocated id (spec section 4.1).
The accumulator also carries the ids matched or spawned this tick. -/
def upsertDet (cfg : Config) (acc : TrackState × List ℕ)
    (d : RawDetection) : TrackState × List ℕ :=
  let st := acc.1
  let matched := acc.2
  let freshRec : TrackedRec :=
    { id := st.nextId, cx := d.cx, cy := d.cy
    , confidence := d.confidence, missCount := 0 }
  let spawned : TrackState :=
    { nextId := st.nextId + 1, subjects := st.subjects ++ [freshRec] }
  match nearestRec st.subjects d with
  | some b =>
      if sqDist d b ≤ cfg.assocThreshold ^ 2 then
        let updated := st.subjects.map
          (fun r =>
            if r.id = b.id then
              { r with
                cx := d.cx, cy := d.cy
                confidence := d.confidence, missCount := 0 }
            else r)
        ({ st with subjects := updated }, b.id :: matched)
      else
        (spawned, st.nextId :: matched)
  | none =>
      (spawned, st.nextId :: matched)

/-- Modelled from the spec: the TrackedSubject Repository contract
`upsert(detections) -> subjects` (backend `tracker.py` is absent from
`src/`): each detection is associated or spawned, then every record with
no association this tick has its consecutive miss counter incremented,
and records whose miss counter exceeds the grace period are evicted
(spec section 4.1). -/
def upsert (cfg : Config) (dets : List RawDetection) (st : TrackState) :
    TrackState :=
  let stepped := dets.foldl (upsertDet cfg) (st, [])
  let aged := stepped.1.subjects.map
    (fun r =>
      if r.id ∈ stepped.2 then r
      else { r with missCount := r.missCount + 1 })
  let kept := aged.filter (fun r => r.missCount ≤ cfg.graceTicks)
  { stepped.1 with subjects := kept }

/-- Iterate `upsert` with an empty detection list: consecutive ticks in
which no incoming detection is associated with any subject. -/
def upsertIter (cfg : Config) : ℕ → TrackState → TrackState
  | 0, st => st
  | n + 1, st => upsert cfg [] (upsertIter cfg n st)

/-- Ids that receive an association during one `upsert` of the given
detections against the given repository state: the id of every record a
detection matched, together with the ids of the records spawned by
unmatched detections.  A subject id absent from this list got no
associated detection this tick. -/
def matchedIds (cfg : Config) (dets : List RawDetection)
    (st : TrackState) : List ℕ :=
  (dets.foldl (upsertDet cfg) (st, [])).2

/-- Iterate `upsert` over an arbitrary per-tick detection stream: tick
`k` consumes the detection list `detsFn k`, so other subjects may keep
being matched while one goes unmatched. -/
def upsertRun (cfg : Config) (detsFn : ℕ → List RawDetection) :
    ℕ → TrackState → TrackState
  | 0, st => st
  | n + 1, st => upsert cfg (detsFn n) (upsertRun cfg detsFn n st)

/-- Camera status record as held by the frontend
(`useCamera` hook and `App.jsx`). -/
structure CameraStatus where
  active : Bool
  mode : String
  position : Pose
  detectedPersons : ℕ
deriving DecidableEq, Repr

/-- Embeds the initial state of the `useCamera` hook
(`src/unnamed/part_002` lines 10-16): active false, mode `manual`,
position x 0, y 2.5, z 0, no detected persons. -/
def useCameraInitialStatus : CameraStatus :=
  { active := false, mode := "manual"
  , position := { x := 0, y := 5/2, z := 0 }, detectedPersons := 0 }

/-- Embeds the initial `cameraStatus` of `App.jsx` lines 17-23: active
false, mode `manual`, position x 0, y 2.5, z 0, no detected persons. -/
def appInitialCameraStatus : CameraStatus :=
  { active := false, mode := "manual"
  , position := { x := 0, y := 5/2, z := 0 }, detectedPersons := 0 }

/-- Modelled from the spec: the configured home position of the engine
(backend `config.py` is absent from `src/`); the value is the one the
frontend initializers carry, x 0, y 2.5, z 0. -/
def homePose : Pose := { x := 0, y := 5/2, z := 0 }

/-- Modelled from the spec: the ControlState created at engine start
(spec section 3 lifecycle; backend `main.py` is absent from `src/`):
mode manual, actual and target pose at the home position, tick 0. -/
def initControlState : ControlState :=
  { mode := Mode.manual, actual := homePose, target := homePose, tick := 0 }

/-- Embeds the horizontal placement of `PersonModel` in
`frontend/src/components/StudioLayout.jsx` lines 63-68:
`x = ((person.center.x - 640) / 640) * 4`. -/
def personModelX (centerX : ℚ) : ℚ := ((centerX - 640) / 640) * 4

/-- Default retry budget of `autoReconnect` in
`frontend/src/services/websocket.js` (`maxRetries = 5`). -/
def defaultMaxRetries : ℕ := 5

/-- Embeds the `onclose` handler installed by `autoReconnect` in
`frontend/src/services/websocket.js` lines 129-135: when the retry
counter is below `maxRetries` it is incremented and a reconnection is
scheduled after `2000 * retries` milliseconds (the value after the
increment); otherwise no reconnection is scheduled.  Returns the new
counter and the scheduled delay, if any. -/
def reconnectOnClose (maxRetries retries : ℕ) : ℕ × Option ℕ :=
  if retries < maxRetries then (retries + 1, some (2000 * (retries + 1)))
  else (retries, none)

/-- Embeds the `onopen` handler installed by `autoReconnect` in
`frontend/src/services/websocket.js` line 136: a successful open resets
the retry counter to 0. -/
def reconnectOnOpen (_retries : ℕ) : ℕ := 0

/-- Number of reconnection attempts scheduled over `n` consecutive close
events starting from retry counter `retries`, with no successful open in
between. -/
def scheduledAttempts (maxRetries : ℕ) : ℕ → ℕ → ℕ
  | 0, _ => 0
  | n + 1, retries =>
      let step := reconnectOnClose maxRetries retries
      (if step.2.isSome then 1 else 0) + scheduledAttempts maxRetries n step.1

/-!  Helper lemmas about clamping and displacement capping. -/

theorem clampQ_mem {lo hi : ℚ} (v : ℚ) (h : lo ≤ hi) :
    lo ≤ clampQ lo hi v ∧ clampQ lo hi v ≤ hi := by
  refine ⟨le_max_left _ _, max_le h (min_le_left _ _)⟩

theorem clampQ_eq_self {lo hi v : ℚ} (h1 : lo ≤ v) (h2 : v ≤ hi) :
    clampQ lo hi v = v := by
  unfold clampQ
  rw [min_eq_right h2, max_eq_right h1]

theorem clampQ_contract {lo hi a : ℚ} (w : ℚ) (h1 : lo ≤ a) (h2 : a ≤ hi) :
    |clampQ lo hi w - a| ≤ |w - a| := by
  unfold clampQ
  rcases le_total w lo with hw | hw
  · rw [min_eq_right (hw.trans (h1.trans h2)), max_eq_left hw]
    rw [abs_of_nonpos (by linarith), abs_of_nonpos (by linarith)]
    linarith
  · rcases le_total hi w with hw2 | hw2
    · rw [min_eq_left hw2, max_eq_right (h1.trans h2)]
      rw [abs_of_nonneg (by linarith), abs_of_nonneg (by linarith)]
      linarith
    · rw [min_eq_right hw2, max_eq_right hw]

theorem capDisp_abs_le {vdt : ℚ} (delta : ℚ) (hv : 0 ≤ vdt) :
    |capDisp vdt delta| ≤ vdt := by
  unfold capDisp
  rw [abs_le]
  constructor
  · exact le_max_left _ _
  · exact max_le (by linarith) (min_le_left _ _)

theorem capDisp_nonneg_le {vdt delta : ℚ} (hv : 0 ≤ vdt) (hd : 0 ≤ delta) :
    0 ≤ capDisp vdt delta ∧ capDisp vdt delta ≤ delta := by
  unfold capDisp
  have hmin : 0 ≤ min vdt delta := le_min hv hd
  rw [max_eq_right (by linarith)]
  exact ⟨hmin, min_le_right _ _⟩

theorem capDisp_nonpos_ge {vdt delta : ℚ} (hv : 0 ≤ vdt) (hd : delta ≤ 0) :
    delta ≤ capDisp vdt delta ∧ capDisp vdt delta ≤ 0 := by
  unfold capDisp
  rw [min_eq_right (by linarith)]
  constructor
  · exact le_max_right _ _
  · exact max_le (by linarith) hd

theorem capDisp_pos {vdt delta : ℚ} (hv : 0 < vdt) (hd : 0 < delta) :
    0 < capDisp vdt delta := by
  unfold capDisp
  have hmin : 0 < min vdt delta := lt_min hv hd
  rw [max_eq_right (by linarith)]
  exact hmin

theorem capDisp_neg {vdt delta : ℚ} (hv : 0 < vdt) (hd : delta < 0) :
    capDisp vdt delta < 0 := by
  unfold capDisp
  rw [min_eq_right (by linarith)]
  exact max_lt (by linarith) hd

theorem advance1D_mem {lo hi : ℚ} (vdt t a : ℚ) (h : lo ≤ hi) :
    lo ≤ advance1D lo hi vdt t a ∧ advance1D lo hi vdt t a ≤ hi :=
  clampQ_mem _ h

theorem advance1D_dist {lo hi vdt a : ℚ} (t : ℚ) (h1 : lo ≤ a)
    (h2 : a ≤ hi) (hv : 0 ≤ vdt) :
    |advance1D lo hi vdt t a - a| ≤ vdt := by
  have hc := clampQ_contract
    (a + capDisp vdt (t - a)) h1 h2
  have hcap := capDisp_abs_le (t - a) hv
  calc |advance1D lo hi vdt t a - a|
      ≤ |a + capDisp vdt (t - a) - a| := hc
    _ = |capDisp vdt (t - a)| := by ring_nf
    _ ≤ vdt := hcap

theorem advance1D_le {lo hi vdt t a : ℚ} (hla : lo ≤ a) (hat : a ≤ t)
    (hth : t ≤ hi) (hv : 0 ≤ vdt) :
    a ≤ advance1D lo hi vdt t a ∧ advance1D lo hi vdt t a ≤ t := by
  obtain ⟨hd0, hdle⟩ := capDisp_nonneg_le hv
    (by linarith : (0:ℚ) ≤ t - a)
  have heq : advance1D lo hi vdt t a = a + capDisp vdt (t - a) := by
    unfold advance1D
    exact clampQ_eq_self (by linarith) (by linarith)
  rw [heq]
  constructor <;> linarith

theorem advance1D_ge {lo hi vdt t a : ℚ} (hlt : lo ≤ t) (hta : t ≤ a)
    (hah : a ≤ hi) (hv : 0 ≤ vdt) :
    t ≤ advance1D lo hi vdt t a ∧ advance1D lo hi vdt t a ≤ a := by
  obtain ⟨hdge, hd0⟩ := capDisp_nonpos_ge hv
    (by linarith : t - a ≤ (0:ℚ))
  have heq : advance1D lo hi vdt t a = a + capDisp vdt (t - a) := by
    unfold advance1D
    exact clampQ_eq_self (by linarith) (by linarith)
  rw [heq]
  constructor <;> linarith

theorem advance1D_lt {lo hi vdt t a : ℚ} (hla : lo ≤ a) (hat : a < t)
    (hth : t ≤ hi) (hv : 0 < vdt) :
    a < advance1D lo hi vdt t a := by
  have hd0 := capDisp_pos hv (by linarith : (0:ℚ) < t - a)
  obtain ⟨_, hdle⟩ := capDisp_nonneg_le hv.le
    (by linarith : (0:ℚ) ≤ t - a)
  have heq : advance1D lo hi vdt t a = a + capDisp vdt (t - a) := by
    unfold advance1D
    exact clampQ_eq_self (by linarith) (by linarith)
  rw [heq]
  linarith

theorem advance1D_gt {lo hi vdt t a : ℚ} (hlt : lo ≤ t) (hta : t < a)
    (hah : a ≤ hi) (hv : 0 < vdt) :
    advance1D lo hi vdt t a < a := by
  have hd0 := capDisp_neg hv (by linarith : t - a < (0:ℚ))
  obtain ⟨hdge, _⟩ := capDisp_nonpos_ge hv.le
    (by linarith : t - a ≤ (0:ℚ))
  have heq : advance1D lo hi vdt t a = a + capDisp vdt (t - a) := by
    unfold advance1D
    exact clampQ_eq_self (by linarith) (by linarith)
  rw [heq]
  linarith

theorem advance1D_self {lo hi vdt a : ℚ} (h1 : lo ≤ a) (h2 : a ≤ hi)
    (hv : 0 ≤ vdt) : advance1D lo hi vdt a a = a := by
  unfold advance1D capDisp
  rw [sub_self, min_eq_right hv, max_eq_right (by linarith), add_zero]
  exact clampQ_eq_self h1 h2

theorem clampPose_mem (e : Envelope) (p : Pose) (he : e.Wf) :
    (e.clampPose p).InEnvelope e := by
  obtain ⟨hx, hy, hz⟩ := he
  obtain ⟨hx1, hx2⟩ := clampQ_mem p.x hx
  obtain ⟨hy1, hy2⟩ := clampQ_mem p.y hy
  obtain ⟨hz1, hz2⟩ := clampQ_mem p.z hz
  exact ⟨hx1, hx2, hy1, hy2, hz1, hz2⟩

/-- C1: every pose the system produces — the result of every Motion
Planner `advance` and the standing target set by every operator
`setPosition` command, as well as the frontend `moveCamera` position when
limits are loaded — lies within the configured positional envelope;
out-of-range coordinates are clamped to the bounds, never rejected with
an error (the operations are total functions). -/
theorem envelope_invariant (cfg : Config) (l : Limits)
    (he : cfg.env.Wf) (hl : l.Wf) :
    (∀ target actual : Pose,
      (advance cfg.env cfg.maxVelocity cfg.dt target actual).InEnvelope
        cfg.env) ∧
    (∀ (s : ControlState) (p : Pose),
      ((setPositionCmd cfg s p).target).InEnvelope cfg.env) ∧
    (∀ (position : Pose) (axis : Axis) (direction : ℚ),
      (moveCamera (some l) position axis direction).InLimits l) := by
  obtain ⟨hex, hey, hez⟩ := he
  obtain ⟨hlx, hly, hlz⟩ := hl
  refine ⟨fun target actual => ?_, fun s p => ?_, fun position axis direction => ?_⟩
  · obtain ⟨hx1, hx2⟩ := advance1D_mem (cfg.maxVelocity * cfg.dt)
      target.x actual.x hex
    obtain ⟨hy1, hy2⟩ := advance1D_mem (cfg.maxVelocity * cfg.dt)
      target.y actual.y hey
    obtain ⟨hz1, hz2⟩ := advance1D_mem (cfg.maxVelocity * cfg.dt)
      target.z actual.z hez
    exact ⟨hx1, hx2, hy1, hy2, hz1, hz2⟩
  · exact clampPose_mem cfg.env p ⟨hex, hey, hez⟩
  · obtain ⟨hx1, hx2⟩ := clampQ_mem ((moveCamera none position axis direction).x) hlx
    obtain ⟨hy1, hy2⟩ := clampQ_mem ((moveCamera none position axis direction).y) hly
    obtain ⟨hz1, hz2⟩ := clampQ_mem ((moveCamera none position axis direction).z) hlz
    cases axis <;>
      exact ⟨hx1, hx2, hy1, hy2, hz1, hz2⟩

/-- Witness for C1 at the default envelope and the matching limits. -/
theorem envelope_invariant_witness :
    (advance defaultConfig.env defaultConfig.maxVelocity defaultConfig.dt
      { x := 9, y := 9, z := 9 } { x := 0, y := 5/2, z := 0 }).InEnvelope
      defaultConfig.env ∧
    ((setPositionCmd defaultConfig initControlState
      { x := 9, y := 0, z := -9 }).target).InEnvelope defaultConfig.env ∧
    (moveCamera
      (some { x := { low := -5, high := 5 }, y := { low := 1, high := 4 }
            , z := { low := -5, high := 5 } })
      { x := 49/10, y := 2, z := 0 } Axis.x 1).InLimits
      { x := { low := -5, high := 5 }, y := { low := 1, high := 4 }
      , z := { low := -5, high := 5 } } := by
  have h := envelope_invariant defaultConfig
    { x := { low := -5, high := 5 }, y := { low := 1, high := 4 }
    , z := { low := -5, high := 5 } }
    (by norm_num [Envelope.Wf, defaultConfig, defaultEnvelope])
    (by norm_num [Limits.Wf])
  exact ⟨h.1 _ _, h.2.1 _ _, h.2.2 _ _ _⟩

/-- C2: for every target pose, every actual pose (within the envelope, as
the Pose data-model invariant guarantees) and every tick duration, the
per-axis displacement of a single `advance` call is at most
`maxVelocity * dt` — in particular also when the target jumps
discontinuously at a mode switch, since the target is universally
quantified. -/
theorem velocity_bound (cfg : Config) (target actual : Pose)
    (hv : 0 ≤ cfg.maxVelocity) (hdt : 0 ≤ cfg.dt)
    (hact : actual.InEnvelope cfg.env) :
    |(advance cfg.env cfg.maxVelocity cfg.dt target actual).x - actual.x|
        ≤ cfg.maxVelocity * cfg.dt ∧
    |(advance cfg.env cfg.maxVelocity cfg.dt target actual).y - actual.y|
        ≤ cfg.maxVelocity * cfg.dt ∧
    |(advance cfg.env cfg.maxVelocity cfg.dt target actual).z - actual.z|
        ≤ cfg.maxVelocity * cfg.dt := by
  obtain ⟨hx1, hx2, hy1, hy2, hz1, hz2⟩ := hact
  have hvdt : 0 ≤ cfg.maxVelocity * cfg.dt := mul_nonneg hv hdt
  exact ⟨advance1D_dist target.x hx1 hx2 hvdt,
    advance1D_dist target.y hy1 hy2 hvdt,
    advance1D_dist target.z hz1 hz2 hvdt⟩

/-- Witness for C2: a wide-to-speaker style discontinuous jump from the
home pose still moves at most 1/30 m on each axis in one 30 Hz tick. -/
theorem velocity_bound_witness :
    |(advance defaultConfig.env defaultConfig.maxVelocity defaultConfig.dt
      { x := -5, y := 4, z := 5 } { x := 0, y := 5/2, z := 0 }).x - 0|
        ≤ defaultConfig.maxVelocity * defaultConfig.dt ∧
    |(advance defaultConfig.env defaultConfig.maxVelocity defaultConfig.dt
      { x := -5, y := 4, z := 5 } { x := 0, y := 5/2, z := 0 }).y - 5/2|
        ≤ defaultConfig.maxVelocity * defaultConfig.dt ∧
    |(advance defaultConfig.env defaultConfig.maxVelocity defaultConfig.dt
      { x := -5, y := 4, z := 5 } { x := 0, y := 5/2, z := 0 }).z - 0|
        ≤ defaultConfig.maxVelocity * defaultConfig.dt :=
  velocity_bound defaultConfig { x := -5, y := 4, z := 5 }
    { x := 0, y := 5/2, z := 0 }
    (by norm_num [defaultConfig]) (by norm_num [defaultConfig])
    (by norm_num [Pose.InEnvelope, defaultConfig, defaultEnvelope])

/-!  Properties of the speaker-mode preference order. -/

theorem prefGE_refl (s : Subject) : prefGE s s = true := by
  simp [prefGE]

theorem prefGE_total (s t : Subject) :
    prefGE s t = true ∨ prefGE t s = true := by
  unfold prefGE
  by_cases hsp : s.isSpeaking = t.isSpeaking
  · rw [if_pos hsp, if_pos hsp.symm]
    by_cases hc : s.confidence = t.confidence
    · rw [if_pos hc, if_pos hc.symm]
      rcases Nat.le_total s.id t.id with h | h
      · left; exact decide_eq_true h
      · right; exact decide_eq_true h
    · rw [if_neg hc, if_neg (Ne.symm hc)]
      rcases lt_or_gt_of_ne hc with h | h
      · right; exact decide_eq_true h
      · left; exact decide_eq_true h
  · rw [if_neg hsp, if_neg (Ne.symm hsp)]
    cases hs : s.isSpeaking <;> cases ht : t.isSpeaking <;> simp_all

theorem prefGE_trans {a b c : Subject} (h1 : prefGE a b = true)
    (h2 : prefGE b c = true) : prefGE a c = true := by
  unfold prefGE at h1 h2 ⊢
  by_cases hab : a.isSpeaking = b.isSpeaking <;>
    by_cases hbc : b.isSpeaking = c.isSpeaking
  · have hac : a.isSpeaking = c.isSpeaking := hab.trans hbc
    rw [if_pos hab] at h1
    rw [if_pos hbc] at h2
    rw [if_pos hac]
    by_cases hcab : a.confidence = b.confidence <;>
      by_cases hcbc : b.confidence = c.confidence
    · have hcac : a.confidence = c.confidence := hcab.trans hcbc
      rw [if_pos hcab] at h1
      rw [if_pos hcbc] at h2
      rw [if_pos hcac]
      simp only [decide_eq_true_eq] at h1 h2 ⊢
      omega
    · have hcac : a.confidence ≠ c.confidence := fun h =>
        hcbc (hcab.symm.trans h)
      rw [if_pos hcab] at h1
      rw [if_neg hcbc] at h2
      rw [if_neg hcac]
      simp only [decide_eq_true_eq] at h2 ⊢
      rw [hcab]
      exact h2
    · have hcac : a.confidence ≠ c.confidence := fun h =>
        hcab (h.trans hcbc.symm)
      rw [if_neg hcab] at h1
      rw [if_pos hcbc] at h2
      rw [if_neg hcac]
      simp only [decide_eq_true_eq] at h1 ⊢
      rw [← hcbc]
      exact h1
    · rw [if_neg hcab] at h1
      rw [if_neg hcbc] at h2
      simp only [decide_eq_true_eq] at h1 h2
      have hlt : c.confidence < a.confidence := h2.trans h1
      rw [if_neg (ne_of_gt hlt)]
      exact decide_eq_true hlt
  · rw [if_neg hbc] at h2
    have hbtrue : b.isSpeaking = true := h2
    have hatrue : a.isSpeaking = true := hab.trans hbtrue
    have hac : a.isSpeaking ≠ c.isSpeaking := by
      rw [hatrue]
      intro h
      exact hbc (hbtrue.trans h)
    rw [if_neg hac]
    exact hatrue
  · rw [if_neg hab] at h1
    have hatrue : a.isSpeaking = true := h1
    have hbfalse : b.isSpeaking = false := by
      cases hb : b.isSpeaking
      · rfl
      · exact absurd (hatrue.trans hb.symm) hab
    have hcfalse : c.isSpeaking = false := hbc.symm.trans hbfalse
    have hac : a.isSpeaking ≠ c.isSpeaking := by
      rw [hatrue, hcfalse]
      simp
    rw [if_neg hac]
    exact hatrue
  · rw [if_neg hab] at h1
    rw [if_neg hbc] at h2
    have hatrue : a.isSpeaking = true := h1
    have hbtrue : b.isSpeaking = true := h2
    have hbfalse : b.isSpeaking = false := by
      cases hb : b.isSpeaking
      · rfl
      · exact absurd (hatrue.trans hb.symm) hab
    rw [hbtrue] at hbfalse
    exact absurd hbfalse (by simp)

theorem selectFold_spec (l : List Subject) (init : Subject) :
    (l.foldl (fun best t => if prefGE best t then best else t) init = init ∨
      l.foldl (fun best t => if prefGE best t then best else t) init ∈ l) ∧
    prefGE (l.foldl (fun best t => if prefGE best t then best else t) init)
      init = true ∧
    ∀ t ∈ l,
      prefGE (l.foldl (fun best t => if prefGE best t then best else t) init)
        t = true := by
  induction l generalizing init with
  | nil => exact ⟨Or.inl rfl, prefGE_refl init, fun t ht => absurd ht (by simp)⟩
  | cons a l ih =>
    have hfold : (a :: l).foldl
        (fun best t => if prefGE best t then best else t) init =
        l.foldl (fun best t => if prefGE best t then best else t)
          (if prefGE init a then init else a) := by
      simp [List.foldl_cons]
    obtain ⟨hmem, hge, hall⟩ := ih (if prefGE init a then init else a)
    have hnext_init : prefGE (if prefGE init a then init else a) init = true := by
      by_cases h : prefGE init a = true
      · rw [if_pos h]
        exact prefGE_refl init
      · rw [if_neg h]
        rcases prefGE_total init a with h' | h'
        · exact absurd h' h
        · exact h'
    have hnext_a : prefGE (if prefGE init a then init else a) a = true := by
      by_cases h : prefGE init a = true
      · rw [if_pos h]
        exact h
      · rw [if_neg h]
        exact prefGE_refl a
    rw [hfold]
    refine ⟨?_, prefGE_trans hge hnext_init, ?_⟩
    · rcases hmem with hmem | hmem
      · rw [hmem]
        by_cases h : prefGE init a = true
        · rw [if_pos h]
          exact Or.inl rfl
        · rw [if_neg h]
          exact Or.inr (List.mem_cons_self a l)
      · exact Or.inr (List.mem_cons_of_mem a hmem)
    · intro t ht
      rcases List.mem_cons.mp ht with rfl | ht
      · exact prefGE_trans hge hnext_a
      · exact hall t ht

theorem selectSubject_some {l : List Subject} {s : Subject}
    (h : selectSubject l = some s) :
    s ∈ l ∧ ∀ t ∈ l, prefGE s t = true := by
  match l with
  | [] => exact absurd h (by simp [selectSubject])
  | a :: rest =>
    have hs : s = rest.foldl
        (fun best t => if prefGE best t then best else t) a := by
      have := h
      simp only [selectSubject, Option.some_inj] at this
      exact this.symm
    obtain ⟨hmem, hge, hall⟩ := selectFold_spec rest a
    subst hs
    refine ⟨?_, ?_⟩
    · rcases hmem with hmem | hmem
      · rw [hmem]
        exact List.mem_cons_self a rest
      · exact List.mem_cons_of_mem a hmem
    · intro t ht
      rcases List.mem_cons.mp ht with rfl | ht
      · exact hge
      · exact hall t ht

/-- Example subject 1 of the spec's speaker-mode test: id 1, not
speaking, confidence 0.9, frame center x 320. -/
def exampleSubject1 : Subject :=
  { id := 1, center := { x := 320, y := 200 }, confidence := 9/10
  , isSpeaking := false }

/-- Example subject 2 of the spec's speaker-mode test: id 2, speaking,
confidence 0.4, frame center x 960. -/
def exampleSubject2 : Subject :=
  { id := 2, center := { x := 960, y := 200 }, confidence := 4/10
  , isSpeaking := true }

/-- C3: speaker-mode resolution.  On every non-empty subject list a
subject is selected; the selected subject belongs to the list and is at
least as preferred as every listed subject under `prefGE` (speaking beats
non-speaking regardless of confidence, then higher confidence, ties
toward the lowest id); the resolved pose maps the selected subject's
horizontal center fraction `cx` of frame width to
`x = (cx - 0.5) * frameSpan` (clamped to the envelope); and on the spec's
concrete example over a 1280-wide frame the speaking low-confidence
subject 2 is selected with `x = (960/1280 - 0.5) * frameSpan`. -/
theorem speaker_resolution (l : List Subject) (s : Subject)
    (cfg : Config) (tgt : Pose) (_hne : l ≠ [])
    (hsel : selectSubject l = some s) :
    (selectSubject l).isSome = true ∧
    (s ∈ l ∧ ∀ t ∈ l, prefGE s t = true) ∧
    resolveSpeaker cfg l tgt = cfg.env.clampPose
      { x := (s.center.x / cfg.frameWidth - 1/2) * cfg.frameSpan
      , y := cfg.headY, z := cfg.closeZ } ∧
    selectSubject [exampleSubject1, exampleSubject2] = some exampleSubject2 ∧
    (resolveSpeaker defaultConfig [exampleSubject1, exampleSubject2] tgt).x =
      (960/1280 - 1/2) * defaultConfig.frameSpan := by
  refine ⟨by rw [hsel]; rfl, selectSubject_some hsel, ?_, ?_, ?_⟩
  · unfold resolveSpeaker
    rw [hsel]
  · norm_num [selectSubject, prefGE, exampleSubject1, exampleSubject2]
  · norm_num [resolveSpeaker, selectSubject, prefGE, exampleSubject1,
      exampleSubject2, defaultConfig, defaultEnvelope, Envelope.clampPose,
      clampQ]

/-- Witness for C3 at the spec's concrete example list. -/
theorem speaker_resolution_witness :
    (selectSubject [exampleSubject1, exampleSubject2]).isSome = true ∧
    (exampleSubject2 ∈ [exampleSubject1, exampleSubject2] ∧
      ∀ t ∈ [exampleSubject1, exampleSubject2],
        prefGE exampleSubject2 t = true) ∧
    resolveSpeaker defaultConfig [exampleSubject1, exampleSubject2]
        homePose =
      defaultConfig.env.clampPose
        { x := (exampleSubject2.center.x / defaultConfig.frameWidth - 1/2) *
            defaultConfig.frameSpan
        , y := defaultConfig.headY, z := defaultConfig.closeZ } ∧
    selectSubject [exampleSubject1, exampleSubject2] = some exampleSubject2 ∧
    (resolveSpeaker defaultConfig [exampleSubject1, exampleSubject2]
        homePose).x =
      (960/1280 - 1/2) * defaultConfig.frameSpan :=
  speaker_resolution [exampleSubject1, exampleSubject2] exampleSubject2
    defaultConfig homePose (by simp)
    (by norm_num [selectSubject, prefGE, exampleSubject1, exampleSubject2])

theorem advance_self (e : Envelope) (v dt : ℚ) (p : Pose)
    (hp : p.InEnvelope e) (hv : 0 ≤ v * dt) :
    advance e v dt p p = p := by
  obtain ⟨hx1, hx2, hy1, hy2, hz1, hz2⟩ := hp
  unfold advance
  rw [advance1D_self hx1 hx2 hv, advance1D_self hy1 hy2 hv,
    advance1D_self hz1 hz2 hv]

theorem runTicks_frozen (cfg : Config) (subjFn : ℕ → List Subject)
    (p : Pose) (hp : p.InEnvelope cfg.env)
    (hv : 0 ≤ cfg.maxVelocity * cfg.dt) :
    ∀ (n : ℕ) (st : ControlState), st.mode = Mode.manual → st.target = p →
      st.actual = p → (runTicks cfg subjFn n st).actual = p := by
  intro n
  induction n with
  | zero => intro st _ _ h3; exact h3
  | succ n ih =>
      intro st h1 h2 h3
      show (runTicks cfg subjFn n (tickStep cfg (subjFn st.tick) st)).actual = p
      apply ih
      · simp [tickStep]
        exact h1
      · simp [tickStep, resolve, h1]
        exact h2
      · simp [tickStep, resolve, h1, h2, h3]
        exact advance_self cfg.env cfg.maxVelocity cfg.dt p hp hv

/-- C4: entering manual mode from any other mode freezes the target at
the current actual pose, and every subsequent tick with no new operator
command leaves the actual pose unchanged, whatever subject lists the
ticks read. -/
theorem manual_freeze (cfg : Config) (s : ControlState)
    (subjFn : ℕ → List Subject) (n : ℕ) (hm : s.mode ≠ Mode.manual)
    (henv : s.actual.InEnvelope cfg.env)
    (hv : 0 ≤ cfg.maxVelocity * cfg.dt) :
    (setMode s Mode.manual).mode = Mode.manual ∧
    (setMode s Mode.manual).target = s.actual ∧
    (runTicks cfg subjFn n (setMode s Mode.manual)).actual = s.actual := by
  have hs : setMode s Mode.manual =
      { s with mode := Mode.manual, target := s.actual } := by
    unfold setMode
    rw [if_neg hm]
  rw [hs]
  exact ⟨rfl, rfl,
    runTicks_frozen cfg subjFn s.actual henv hv n _ rfl rfl rfl⟩

/-- Witness for C4: from speaker mode at a pose inside the envelope,
three ticks after switching to manual leave the pose untouched. -/
theorem manual_freeze_witness :
    (setMode { mode := Mode.speaker, actual := { x := 1, y := 2, z := 3 }
             , target := { x := -4, y := 1, z := 0 }, tick := 7 }
       Mode.manual).mode = Mode.manual ∧
    (setMode { mode := Mode.speaker, actual := { x := 1, y := 2, z := 3 }
             , target := { x := -4, y := 1, z := 0 }, tick := 7 }
       Mode.manual).target = { x := 1, y := 2, z := 3 } ∧
    (runTicks defaultConfig (fun _ => [exampleSubject1]) 3
      (setMode { mode := Mode.speaker, actual := { x := 1, y := 2, z := 3 }
               , target := { x := -4, y := 1, z := 0 }, tick := 7 }
        Mode.manual)).actual = { x := 1, y := 2, z := 3 } :=
  manual_freeze defaultConfig
    { mode := Mode.speaker, actual := { x := 1, y := 2, z := 3 }
    , target := { x := -4, y := 1, z := 0 }, tick := 7 }
    (fun _ => [exampleSubject1]) 3 (by simp)
    (by norm_num [Pose.InEnvelope, defaultConfig, defaultEnvelope])
    (by norm_num [defaultConfig])

theorem findPreset_none_iff (tbl : PresetTable) (name : String) :
    findPreset tbl name = none ↔ ∀ pr ∈ tbl, pr.1 ≠ name := by
  unfold findPreset
  rw [Option.map_eq_none', List.find?_eq_none]
  constructor
  · intro h pr hpr
    have := h pr hpr
    simpa using this
  · intro h pr hpr
    simpa using h pr hpr

/-- Pose of the spec's "Plan Large" preset example: x 0, y 3.0, z -4.0. -/
def planLargePose : Pose := { x := 0, y := 3, z := -4 }

/-- C5: applying a preset fails (returns `none`, the recoverable
UnknownPreset surfaced to the caller) exactly when the name is not in the
preset table; on a known name it forces manual mode and makes the next
tick's target equal the preset pose exactly — in particular for the
spec's "Plan Large" preset at pose (0, 3, -4). -/
theorem preset_apply (tbl : PresetTable) (name : String)
    (s : ControlState) (cfg : Config) (subjects : List Subject) :
    (applyPreset tbl name s = none ↔ ∀ pr ∈ tbl, pr.1 ≠ name) ∧
    (∀ p : Pose, findPreset tbl name = some p →
      applyPreset tbl name s =
          some { s with mode := Mode.manual, target := p } ∧
        (tickStep cfg subjects
          { s with mode := Mode.manual, target := p }).target = p) ∧
    (applyPreset [("Plan Large", planLargePose)] "Plan Large" s =
        some { s with mode := Mode.manual, target := planLargePose } ∧
      (tickStep cfg subjects
        { s with mode := Mode.manual, target := planLargePose }).target =
        planLargePose) := by
  refine ⟨?_, ?_, ?_, rfl⟩
  · unfold applyPreset
    rw [Option.map_eq_none']
    exact findPreset_none_iff tbl name
  · intro p hp
    constructor
    · unfold applyPreset
      rw [hp]
      rfl
    · rfl
  · unfold applyPreset findPreset
    simp [List.find?]

/-- The initial control state after applying the "Plan Large" preset. -/
def planLargeState : ControlState :=
  { initControlState with mode := Mode.manual, target := planLargePose }

/-- Witness for C5: the "Plan Large" preset applies from the initial
state, and an unknown name fails with `none`. -/
theorem preset_apply_witness :
    (applyPreset [("Plan Large", planLargePose)] "Plan Large"
        initControlState = some planLargeState) ∧
    (tickStep defaultConfig [] planLargeState).target = planLargePose ∧
    applyPreset [("Plan Large", planLargePose)] "Gros Plan"
        initControlState = none := by
  have h1 := (preset_apply [("Plan Large", planLargePose)]
    "Plan Large" initControlState defaultConfig []).2.2
  have h2 := (preset_apply [("Plan Large", planLargePose)]
    "Gros Plan" initControlState defaultConfig []).1
  exact ⟨h1.1, h1.2, h2.mpr (by simp)⟩

theorem runTicks_target_empty (cfg : Config) :
    ∀ (n : ℕ) (st : ControlState),
      st.mode = Mode.speaker ∨ st.mode = Mode.group →
      (runTicks cfg (fun _ => []) n st).target = st.target := by
  intro n
  induction n with
  | zero => intro st _; rfl
  | succ n ih =>
      intro st hm
      show (runTicks cfg (fun _ => []) n
        (tickStep cfg [] st)).target = st.target
      have hres : resolve cfg st.mode [] st.target = st.target := by
        rcases hm with h | h <;>
          simp [h, resolve, resolveSpeaker, resolveGroup, selectSubject]
      have hmode : (tickStep cfg [] st).mode = st.mode := rfl
      rw [ih (tickStep cfg [] st) (by rw [hmode]; exact hm)]
      simp [tickStep, hres]

/-- C6: in speaker or group mode an empty subject list resolves to the
previously resolved target, unchanged across every such tick; the
resolver is a total function, so absent or noisy tracking data never
raises an error. -/
theorem empty_subjects_hold (cfg : Config) (tgt : Pose)
    (s : ControlState) (n : ℕ)
    (hm : s.mode = Mode.speaker ∨ s.mode = Mode.group) :
    resolve cfg Mode.speaker [] tgt = tgt ∧
    resolve cfg Mode.group [] tgt = tgt ∧
    (runTicks cfg (fun _ => []) n s).target = s.target := by
  exact ⟨rfl, rfl, runTicks_target_empty cfg n s hm⟩

/-- Witness for C6: five empty-subject ticks in group mode hold the
standing target. -/
theorem empty_subjects_hold_witness :
    resolve defaultConfig Mode.speaker [] { x := 2, y := 2, z := 2 } =
      { x := 2, y := 2, z := 2 } ∧
    resolve defaultConfig Mode.group [] { x := 2, y := 2, z := 2 } =
      { x := 2, y := 2, z := 2 } ∧
    (runTicks defaultConfig (fun _ => []) 5
      { mode := Mode.group, actual := homePose
      , target := { x := 2, y := 2, z := 2 }, tick := 0 }).target =
      { x := 2, y := 2, z := 2 } :=
  empty_subjects_hold defaultConfig { x := 2, y := 2, z := 2 }
    { mode := Mode.group, actual := homePose
    , target := { x := 2, y := 2, z := 2 }, tick := 0 } 5 (Or.inr rfl)

/-- Pose sequence of one axis under repeated Motion Planner ticks toward
a fixed target. -/
def iterAdvance (lo hi vdt t a0 : ℚ) : ℕ → ℚ
  | 0 => a0
  | n + 1 => advance1D lo hi vdt t (iterAdvance lo hi vdt t a0 n)

theorem iterAdvance_shift (lo hi vdt t a0 : ℚ) :
    ∀ n : ℕ, iterAdvance lo hi vdt t (advance1D lo hi vdt t a0) n =
      iterAdvance lo hi vdt t a0 (n + 1) := by
  intro n
  induction n with
  | zero => rfl
  | succ n ih =>
      show advance1D lo hi vdt t
        (iterAdvance lo hi vdt t (advance1D lo hi vdt t a0) n) = _
      rw [ih]
      rfl

theorem iterAdvance_bounds_le {lo hi vdt t a0 : ℚ} (hla : lo ≤ a0)
    (hat : a0 ≤ t) (hth : t ≤ hi) (hv : 0 ≤ vdt) :
    ∀ n : ℕ, a0 ≤ iterAdvance lo hi vdt t a0 n ∧
      iterAdvance lo hi vdt t a0 n ≤ t := by
  intro n
  induction n with
  | zero => exact ⟨le_refl a0, hat⟩
  | succ n ih =>
      obtain ⟨h1, h2⟩ := ih
      obtain ⟨hs1, hs2⟩ := advance1D_le (hla.trans h1) h2 hth hv
      exact ⟨h1.trans hs1, hs2⟩

theorem iterAdvance_bounds_ge {lo hi vdt t a0 : ℚ} (hlt : lo ≤ t)
    (hta : t ≤ a0) (hah : a0 ≤ hi) (hv : 0 ≤ vdt) :
    ∀ n : ℕ, t ≤ iterAdvance lo hi vdt t a0 n ∧
      iterAdvance lo hi vdt t a0 n ≤ a0 := by
  intro n
  induction n with
  | zero => exact ⟨hta, le_refl a0⟩
  | succ n ih =>
      obtain ⟨h1, h2⟩ := ih
      obtain ⟨hs1, hs2⟩ := advance1D_ge hlt h1 (h2.trans hah) hv
      exact ⟨hs1, hs2.trans h2⟩

theorem runTicks_manual (cfg : Config) (subjFn : ℕ → List Subject) :
    ∀ (n : ℕ) (st : ControlState), st.mode = Mode.manual →
      (runTicks cfg subjFn n st).mode = Mode.manual ∧
      (runTicks cfg subjFn n st).target = st.target ∧
      (runTicks cfg subjFn n st).actual.x =
        iterAdvance cfg.env.xmin cfg.env.xmax (cfg.maxVelocity * cfg.dt)
          st.target.x st.actual.x n ∧
      (runTicks cfg subjFn n st).actual.y =
        iterAdvance cfg.env.ymin cfg.env.ymax (cfg.maxVelocity * cfg.dt)
          st.target.y st.actual.y n ∧
      (runTicks cfg subjFn n st).actual.z =
        iterAdvance cfg.env.zmin cfg.env.zmax (cfg.maxVelocity * cfg.dt)
          st.target.z st.actual.z n := by
  intro n
  induction n with
  | zero => intro st hm; exact ⟨hm, rfl, rfl, rfl, rfl⟩
  | succ n ih =>
      intro st hm
      have htick : tickStep cfg (subjFn st.tick) st =
          { mode := st.mode
          , actual := advance cfg.env cfg.maxVelocity cfg.dt st.target
              st.actual
          , target := st.target, tick := st.tick + 1 } := by
        unfold tickStep
        rw [hm]
        rfl
      have hstep : runTicks cfg subjFn (n + 1) st =
          runTicks cfg subjFn n (tickStep cfg (subjFn st.tick) st) := rfl
      rw [hstep, htick]
      obtain ⟨h1, h2, h3, h4, h5⟩ := ih
        { mode := st.mode
        , actual := advance cfg.env cfg.maxVelocity cfg.dt st.target st.actual
        , target := st.target, tick := st.tick + 1 } hm
      refine ⟨h1, h2, ?_, ?_, ?_⟩
      · rw [h3]
        exact iterAdvance_shift cfg.env.xmin cfg.env.xmax
          (cfg.maxVelocity * cfg.dt) st.target.x st.actual.x n
      · rw [h4]
        exact iterAdvance_shift cfg.env.ymin cfg.env.ymax
          (cfg.maxVelocity * cfg.dt) st.target.y st.actual.y n
      · rw [h5]
        exact iterAdvance_shift cfg.env.zmin cfg.env.zmax
          (cfg.maxVelocity * cfg.dt) st.target.z st.actual.z n

/-- One-step monotone, overshoot-free behavior of the per-axis Motion
Planner iteration toward a fixed in-range target from an in-range start:
while below the target the sequence never decreases and never exceeds
the target, strictly increasing until the target is reached, and
symmetrically from above. -/
theorem iterAdvance_mono_step (lo hi vdt t a0 : ℚ) (n : ℕ)
    (hlt : lo ≤ t) (hth : t ≤ hi) (hla : lo ≤ a0) (hah : a0 ≤ hi)
    (hv : 0 < vdt) :
    (a0 ≤ t →
      iterAdvance lo hi vdt t a0 n ≤ iterAdvance lo hi vdt t a0 (n + 1) ∧
      iterAdvance lo hi vdt t a0 (n + 1) ≤ t ∧
      (iterAdvance lo hi vdt t a0 n < t →
        iterAdvance lo hi vdt t a0 n < iterAdvance lo hi vdt t a0 (n + 1))) ∧
    (t ≤ a0 →
      iterAdvance lo hi vdt t a0 (n + 1) ≤ iterAdvance lo hi vdt t a0 n ∧
      t ≤ iterAdvance lo hi vdt t a0 (n + 1) ∧
      (t < iterAdvance lo hi vdt t a0 n →
        iterAdvance lo hi vdt t a0 (n + 1) < iterAdvance lo hi vdt t a0 n)) := by
  constructor
  · intro hat
    obtain ⟨h1, h2⟩ := iterAdvance_bounds_le hla hat hth hv.le n
    obtain ⟨hs1, hs2⟩ := advance1D_le (hla.trans h1) h2 hth hv.le
    refine ⟨hs1, hs2, fun hlt2 => ?_⟩
    exact advance1D_lt (hla.trans h1) hlt2 hth hv
  · intro hta
    obtain ⟨h1, h2⟩ := iterAdvance_bounds_ge hlt hta hah hv.le n
    obtain ⟨hs1, hs2⟩ := advance1D_ge hlt h1 (h2.trans hah) hv.le
    refine ⟨hs2, hs1, fun hlt2 => ?_⟩
    exact advance1D_gt hlt hlt2 (h2.trans hah) hv

/-- C7: after `setPosition(x,y,z)` immediately followed by
`setMode('manual')` from a manual-mode state, the mode command is a
no-op that preserves the standing clamped target, every subsequent tick
keeps that target, and on each axis the sequence of actual poses over
successive ticks approaches the target monotonically and never
overshoots it, moving strictly while the target has not been reached —
in both directions, so no oscillation is possible. -/
theorem roundtrip_monotone_convergence (cfg : Config) (s : ControlState)
    (subjFn : ℕ → List Subject) (p : Pose) (n : ℕ)
    (hm : s.mode = Mode.manual) (he : cfg.env.Wf)
    (hact : s.actual.InEnvelope cfg.env)
    (hv : 0 < cfg.maxVelocity * cfg.dt) :
    (setMode (setPositionCmd cfg s p) Mode.manual =
      setPositionCmd cfg s p) ∧
    (runTicks cfg subjFn n (setPositionCmd cfg s p)).target =
      cfg.env.clampPose p ∧
    ((s.actual.x ≤ (cfg.env.clampPose p).x →
      (runTicks cfg subjFn n (setPositionCmd cfg s p)).actual.x ≤
        (runTicks cfg subjFn (n + 1) (setPositionCmd cfg s p)).actual.x ∧
      (runTicks cfg subjFn (n + 1) (setPositionCmd cfg s p)).actual.x ≤
        (cfg.env.clampPose p).x ∧
      ((runTicks cfg subjFn n (setPositionCmd cfg s p)).actual.x <
          (cfg.env.clampPose p).x →
        (runTicks cfg subjFn n (setPositionCmd cfg s p)).actual.x <
          (runTicks cfg subjFn (n + 1) (setPositionCmd cfg s p)).actual.x)) ∧
     ((cfg.env.clampPose p).x ≤ s.actual.x →
      (runTicks cfg subjFn (n + 1) (setPositionCmd cfg s p)).actual.x ≤
        (runTicks cfg subjFn n (setPositionCmd cfg s p)).actual.x ∧
      (cfg.env.clampPose p).x ≤
        (runTicks cfg subjFn (n + 1) (setPositionCmd cfg s p)).actual.x ∧
      ((cfg.env.clampPose p).x <
          (runTicks cfg subjFn n (setPositionCmd cfg s p)).actual.x →
        (runTicks cfg subjFn (n + 1) (setPositionCmd cfg s p)).actual.x <
          (runTicks cfg subjFn n (setPositionCmd cfg s p)).actual.x))) ∧
    ((s.actual.y ≤ (cfg.env.clampPose p).y →
      (runTicks cfg subjFn n (setPositionCmd cfg s p)).actual.y ≤
        (runTicks cfg subjFn (n + 1) (setPositionCmd cfg s p)).actual.y ∧
      (runTicks cfg subjFn (n + 1) (setPositionCmd cfg s p)).actual.y ≤
        (cfg.env.clampPose p).y ∧
      ((runTicks cfg subjFn n (setPositionCmd cfg s p)).actual.y <
          (cfg.env.clampPose p).y →
        (runTicks cfg subjFn n (setPositionCmd cfg s p)).actual.y <
          (runTicks cfg subjFn (n + 1) (setPositionCmd cfg s p)).actual.y)) ∧
     ((cfg.env.clampPose p).y ≤ s.actual.y →
      (runTicks cfg subjFn (n + 1) (setPositionCmd cfg s p)).actual.y ≤
        (runTicks cfg subjFn n (setPositionCmd cfg s p)).actual.y ∧
      (cfg.env.clampPose p).y ≤
        (runTicks cfg subjFn (n + 1) (setPositionCmd cfg s p)).actual.y ∧
      ((cfg.env.clampPose p).y <
          (runTicks cfg subjFn n (setPositionCmd cfg s p)).actual.y →
        (runTicks cfg subjFn (n + 1) (setPositionCmd cfg s p)).actual.y <
          (runTicks cfg subjFn n (setPositionCmd cfg s p)).actual.y))) ∧
    ((s.actual.z ≤ (cfg.env.clampPose p).z →
      (runTicks cfg subjFn n (setPositionCmd cfg s p)).actual.z ≤
        (runTicks cfg subjFn (n + 1) (setPositionCmd cfg s p)).actual.z ∧
      (runTicks cfg subjFn (n + 1) (setPositionCmd cfg s p)).actual.z ≤
        (cfg.env.clampPose p).z ∧
      ((runTicks cfg subjFn n (setPositionCmd cfg s p)).actual.z <
          (cfg.env.clampPose p).z →
        (runTicks cfg subjFn n (setPositionCmd cfg s p)).actual.z <
          (runTicks cfg subjFn (n + 1) (setPositionCmd cfg s p)).actual.z)) ∧
     ((cfg.env.clampPose p).z ≤ s.actual.z →
      (runTicks cfg subjFn (n + 1) (setPositionCmd cfg s p)).actual.z ≤
        (runTicks cfg subjFn n (setPositionCmd cfg s p)).actual.z ∧
      (cfg.env.clampPose p).z ≤
        (runTicks cfg subjFn (n + 1) (setPositionCmd cfg s p)).actual.z ∧
      ((cfg.env.clampPose p).z <
          (runTicks cfg subjFn n (setPositionCmd cfg s p)).actual.z →
        (runTicks cfg subjFn (n + 1) (setPositionCmd cfg s p)).actual.z <
          (runTicks cfg subjFn n (setPositionCmd cfg s p)).actual.z))) := by
  obtain ⟨hex, hey, hez⟩ := he
  obtain ⟨ha1, ha2, ha3, ha4, ha5, ha6⟩ := hact
  have hmode : (setPositionCmd cfg s p).mode = Mode.manual := hm
  have hfix : setMode (setPositionCmd cfg s p) Mode.manual =
      setPositionCmd cfg s p := by
    unfold setMode
    rw [if_pos hmode]
  obtain ⟨-, htgt, hx, hy, hz⟩ := runTicks_manual cfg subjFn n
    (setPositionCmd cfg s p) hmode
  obtain ⟨-, -, hx1, hy1, hz1⟩ := runTicks_manual cfg subjFn (n + 1)
    (setPositionCmd cfg s p) hmode
  have hmx := iterAdvance_mono_step cfg.env.xmin cfg.env.xmax
    (cfg.maxVelocity * cfg.dt) (cfg.env.clampPose p).x s.actual.x n
    (clampQ_mem p.x hex).1 (clampQ_mem p.x hex).2 ha1 ha2 hv
  have hmy := iterAdvance_mono_step cfg.env.ymin cfg.env.ymax
    (cfg.maxVelocity * cfg.dt) (cfg.env.clampPose p).y s.actual.y n
    (clampQ_mem p.y hey).1 (clampQ_mem p.y hey).2 ha3 ha4 hv
  have hmz := iterAdvance_mono_step cfg.env.zmin cfg.env.zmax
    (cfg.maxVelocity * cfg.dt) (cfg.env.clampPose p).z s.actual.z n
    (clampQ_mem p.z hez).1 (clampQ_mem p.z hez).2 ha5 ha6 hv
  refine ⟨hfix, htgt, ⟨?_, ?_⟩, ⟨?_, ?_⟩, ⟨?_, ?_⟩⟩
  · intro hle
    rw [hx, hx1]
    exact hmx.1 hle
  · intro hge
    rw [hx, hx1]
    exact hmx.2 hge
  · intro hle
    rw [hy, hy1]
    exact hmy.1 hle
  · intro hge
    rw [hy, hy1]
    exact hmy.2 hge
  · intro hle
    rw [hz, hz1]
    exact hmz.1 hle
  · intro hge
    rw [hz, hz1]
    exact hmz.2 hge

/-- Commanded target of the spec round trip: `setPosition(2,2,2)`. -/
def demoTarget : Pose := { x := 2, y := 2, z := 2 }

/-- Witness for C7: from the fresh manual-mode engine state, commanding
(2,2,2) and re-asserting manual mode yields ticks that climb on x
without passing 2. -/
theorem roundtrip_monotone_convergence_witness :
    (setMode (setPositionCmd defaultConfig initControlState demoTarget)
      Mode.manual = setPositionCmd defaultConfig initControlState
        demoTarget) ∧
    (runTicks defaultConfig (fun _ => []) 4
      (setPositionCmd defaultConfig initControlState demoTarget)).target =
      defaultConfig.env.clampPose demoTarget ∧
    (runTicks defaultConfig (fun _ => []) 4
      (setPositionCmd defaultConfig initControlState demoTarget)).actual.x ≤
      (runTicks defaultConfig (fun _ => []) 5
        (setPositionCmd defaultConfig initControlState demoTarget)).actual.x ∧
    (runTicks defaultConfig (fun _ => []) 5
      (setPositionCmd defaultConfig initControlState demoTarget)).actual.x ≤
      (defaultConfig.env.clampPose demoTarget).x := by
  have h := roundtrip_monotone_convergence defaultConfig initControlState
    (fun _ => []) demoTarget 4 rfl
    (by norm_num [Envelope.Wf, defaultConfig, defaultEnvelope])
    (by norm_num [Pose.InEnvelope, initControlState, homePose,
      defaultConfig, defaultEnvelope])
    (by norm_num [defaultConfig])
  have hx := h.2.2.1.1
    (by norm_num [initControlState, homePose, defaultConfig,
      defaultEnvelope, Envelope.clampPose, clampQ, demoTarget])
  exact ⟨h.1, h.2.1, hx.1, hx.2.1⟩

theorem upsert_nil (cfg : Config) (st : TrackState) :
    (upsert cfg [] st).subjects =
      (st.subjects.map
        (fun r => { r with missCount := r.missCount + 1 })).filter
        (fun r => r.missCount ≤ cfg.graceTicks) := by
  simp [upsert]

theorem upsertIter_miss_ge (cfg : Config) :
    ∀ (k : ℕ) (st : TrackState) (r : TrackedRec),
      r ∈ (upsertIter cfg k st).subjects → k ≤ r.missCount := by
  intro k
  induction k with
  | zero => intro st r _; exact Nat.zero_le _
  | succ k ih =>
      intro st r hr
      have hstep : upsertIter cfg (k + 1) st =
          upsert cfg [] (upsertIter cfg k st) := rfl
      rw [hstep, upsert_nil] at hr
      obtain ⟨hr', _⟩ := List.mem_filter.mp hr
      obtain ⟨r0, hr0, heq⟩ := List.mem_map.mp hr'
      have hk := ih st r0 hr0
      rw [← heq]
      exact Nat.succ_le_succ hk

theorem upsertDet_matched_sub (cfg : Config) (acc : TrackState × List ℕ)
    (d : RawDetection) (j : ℕ) (hj : j ∈ acc.2) :
    j ∈ (upsertDet cfg acc d).2 := by
  simp only [upsertDet]
  cases hnr : nearestRec acc.1.subjects d with
  | none => exact List.mem_cons_of_mem _ hj
  | some b =>
      dsimp only
      by_cases hth : sqDist d b ≤ cfg.assocThreshold ^ 2
      · rw [if_pos hth]
        exact List.mem_cons_of_mem _ hj
      · rw [if_neg hth]
        exact List.mem_cons_of_mem _ hj

theorem upsertDet_unmatched_mem (cfg : Config) (acc : TrackState × List ℕ)
    (d : RawDetection) (r : TrackedRec)
    (hr : r ∈ (upsertDet cfg acc d).1.subjects)
    (hnm : r.id ∉ (upsertDet cfg acc d).2) : r ∈ acc.1.subjects := by
  simp only [upsertDet] at hr hnm
  revert hr hnm
  cases hnr : nearestRec acc.1.subjects d with
  | none =>
      dsimp only
      intro hr hnm
      simp only [List.mem_cons, not_or] at hnm
      rcases List.mem_append.mp hr with h | h
      · exact h
      · rw [List.mem_singleton] at h
        rw [h] at hnm
        exact absurd rfl hnm.1
  | some b =>
      dsimp only
      by_cases hth : sqDist d b ≤ cfg.assocThreshold ^ 2
      · rw [if_pos hth]
        intro hr hnm
        simp only [List.mem_cons, not_or] at hnm
        obtain ⟨r0, hr0, heq⟩ := List.mem_map.mp hr
        by_cases hb : r0.id = b.id
        · rw [if_pos hb] at heq
          rw [← heq] at hnm
          exact absurd hb hnm.1
        · rw [if_neg hb] at heq
          rw [← heq]
          exact hr0
      · rw [if_neg hth]
        intro hr hnm
        simp only [List.mem_cons, not_or] at hnm
        rcases List.mem_append.mp hr with h | h
        · exact h
        · rw [List.mem_singleton] at h
          rw [h] at hnm
          exact absurd rfl hnm.1

theorem foldl_matched_sub (cfg : Config) (dets : List RawDetection) :
    ∀ (acc : TrackState × List ℕ) (j : ℕ), j ∈ acc.2 →
      j ∈ (dets.foldl (upsertDet cfg) acc).2 := by
  induction dets with
  | nil => intro acc j hj; exact hj
  | cons d rest ih =>
      intro acc j hj
      exact ih (upsertDet cfg acc d) j (upsertDet_matched_sub cfg acc d j hj)

theorem foldl_unmatched_mem (cfg : Config) (dets : List RawDetection) :
    ∀ (acc : TrackState × List ℕ) (r : TrackedRec),
      r ∈ (dets.foldl (upsertDet cfg) acc).1.subjects →
      r.id ∉ (dets.foldl (upsertDet cfg) acc).2 → r ∈ acc.1.subjects := by
  induction dets with
  | nil => intro acc r hr _; exact hr
  | cons d rest ih =>
      intro acc r hr hnm
      have h1 : r ∈ (upsertDet cfg acc d).1.subjects :=
        ih (upsertDet cfg acc d) r hr hnm
      refine upsertDet_unmatched_mem cfg acc d r h1 (fun hmem => hnm ?_)
      exact foldl_matched_sub cfg rest (upsertDet cfg acc d) r.id hmem

theorem upsert_unmatched_step (cfg : Config) (dets : List RawDetection)
    (st : TrackState) (i : ℕ) (hni : i ∉ matchedIds cfg dets st) :
    ∀ r ∈ (upsert cfg dets st).subjects, r.id = i →
      ∃ prev ∈ st.subjects, prev.id = i ∧
        r.missCount = prev.missCount + 1 ∧
        r.missCount ≤ cfg.graceTicks := by
  intro r hr hri
  simp only [upsert] at hr
  obtain ⟨hr2, hkeep⟩ := List.mem_filter.mp hr
  obtain ⟨r0, hr0, heq⟩ := List.mem_map.mp hr2
  by_cases hm : r0.id ∈ (dets.foldl (upsertDet cfg) (st, [])).2
  · rw [if_pos hm] at heq
    rw [← heq] at hri
    rw [hri] at hm
    exact absurd hm hni
  · rw [if_neg hm] at heq
    have hid0 : r0.id = i := by
      rw [← heq] at hri
      exact hri
    have hmem : r0 ∈ st.subjects :=
      foldl_unmatched_mem cfg dets (st, []) r0 hr0 hm
    refine ⟨r0, hmem, hid0, ?_, of_decide_eq_true hkeep⟩
    rw [← heq]

theorem upsertRun_miss_ge (cfg : Config) (detsFn : ℕ → List RawDetection)
    (st : TrackState) (i : ℕ) :
    ∀ n : ℕ,
      (∀ k < n, i ∉ matchedIds cfg (detsFn k) (upsertRun cfg detsFn k st)) →
      ∀ r ∈ (upsertRun cfg detsFn n st).subjects, r.id = i →
        n ≤ r.missCount := by
  intro n
  induction n with
  | zero => intro _ r _ _; exact Nat.zero_le _
  | succ n ih =>
      intro hun r hr hri
      have hstep : upsertRun cfg detsFn (n + 1) st =
          upsert cfg (detsFn n) (upsertRun cfg detsFn n st) := rfl
      rw [hstep] at hr
      obtain ⟨prev, hprev, hpid, hpm, -⟩ := upsert_unmatched_step cfg
        (detsFn n) (upsertRun cfg detsFn n st) i
        (hun n (Nat.lt_succ_self n)) r hr hri
      have hge := ih (fun k hk => hun k (hk.trans (Nat.lt_succ_self n)))
        prev hprev hpid
      omega

/-- C8: for every tracked subject and every per-tick detection stream in
which no incoming detection is associated with that subject's id — other
subjects may keep being matched or spawned meanwhile — the subject's
consecutive miss counter grows by one per tick while survivors stay
within the grace period, and after `graceTicks + 1` such ticks no record
with that id remains in the repository, so a subsequent upsert with no
matching detections for the id returns a list not containing it; with an
entirely empty detection stream the whole repository is empty after
`graceTicks + 1` ticks (31 ticks at the default 30-tick grace). -/
theorem grace_eviction (cfg : Config) (detsFn : ℕ → List RawDetection)
    (st : TrackState) (i : ℕ)
    (hun : ∀ k < cfg.graceTicks + 1,
      i ∉ matchedIds cfg (detsFn k) (upsertRun cfg detsFn k st)) :
    (∀ r ∈ (upsertRun cfg detsFn (cfg.graceTicks + 1) st).subjects,
      r.id ≠ i) ∧
    (∀ (dets : List RawDetection) (st2 : TrackState),
      i ∉ matchedIds cfg dets st2 →
      ∀ r ∈ (upsert cfg dets st2).subjects, r.id = i →
        ∃ prev ∈ st2.subjects, prev.id = i ∧
          r.missCount = prev.missCount + 1 ∧
          r.missCount ≤ cfg.graceTicks) ∧
    (upsertIter cfg (cfg.graceTicks + 1) st).subjects = [] := by
  refine ⟨?_, ?_, ?_⟩
  · intro r hr hri
    have h1 := upsertRun_miss_ge cfg detsFn st i (cfg.graceTicks + 1)
      hun r hr hri
    have hr2 : r ∈ (upsert cfg (detsFn cfg.graceTicks)
        (upsertRun cfg detsFn cfg.graceTicks st)).subjects := hr
    obtain ⟨-, -, -, -, h2⟩ := upsert_unmatched_step cfg
      (detsFn cfg.graceTicks) (upsertRun cfg detsFn cfg.graceTicks st) i
      (hun cfg.graceTicks (Nat.lt_succ_self _)) r hr2 hri
    omega
  · intro dets st2 h r hr hri
    exact upsert_unmatched_step cfg dets st2 i h r hr hri
  · rw [List.eq_nil_iff_forall_not_mem]
    intro r hr
    have hge := upsertIter_miss_ge cfg (cfg.graceTicks + 1) st r hr
    have hstep : upsertIter cfg (cfg.graceTicks + 1) st =
        upsert cfg [] (upsertIter cfg cfg.graceTicks st) := rfl
    rw [hstep, upsert_nil] at hr
    obtain ⟨-, hkeep⟩ := List.mem_filter.mp hr
    have hle := of_decide_eq_true hkeep
    omega

/-- A demo record that will go unmatched, at frame center (100, 100). -/
def demoRec : TrackedRec :=
  { id := 0, cx := 100, cy := 100, confidence := 1, missCount := 0 }

/-- A demo record that keeps being matched, at frame center (100, 0). -/
def demoRec5 : TrackedRec :=
  { id := 5, cx := 100, cy := 0, confidence := 1, missCount := 0 }

/-- A two-subject demo repository: id 0 about to be starved of
detections, id 5 still receiving them. -/
def demoTrack : TrackState := { nextId := 6, subjects := [demoRec, demoRec5] }

/-- A detection that matches record 5 exactly and is far outside the
association threshold of record 0. -/
def demoDet : RawDetection := { cx := 100, cy := 0, confidence := 1 }

/-- A small configuration for the eviction witness: association
threshold 10 px and a 1-tick grace period. -/
def demoCfg : Config :=
  { defaultConfig with assocThreshold := 10, graceTicks := 1 }

/-- Witness for C8 on a mixed run: every tick carries a detection that
matches subject 5, subject 0 gets none, and after graceTicks + 1 = 2
ticks subject 0 is gone while subject 5 is still tracked; the
empty-stream run empties the repository in the same number of ticks. -/
theorem grace_eviction_witness :
    (∀ r ∈ (upsertRun demoCfg (fun _ => [demoDet]) 2 demoTrack).subjects,
      r.id ≠ 0) ∧
    (upsertIter demoCfg 2 demoTrack).subjects = [] ∧
    5 ∈ (upsertRun demoCfg (fun _ => [demoDet]) 2
      demoTrack).subjects.map TrackedRec.id := by
  have h := grace_eviction demoCfg (fun _ => [demoDet]) demoTrack 0 ?hun
  case hun =>
    intro k hk
    have hk2 : k < 2 := hk
    interval_cases k
    · norm_num [matchedIds, upsertRun, upsertDet, nearestRec, sqDist,
        demoCfg, defaultConfig, demoDet, demoTrack, demoRec, demoRec5]
    · norm_num [matchedIds, upsertRun, upsert, upsertDet, nearestRec,
        sqDist, demoCfg, defaultConfig, demoDet, demoTrack, demoRec,
        demoRec5]
  refine ⟨h.1, h.2.2, ?_⟩
  norm_num [upsertRun, upsert, upsertDet, nearestRec, sqDist, demoCfg,
    defaultConfig, demoDet, demoTrack, demoRec, demoRec5]

/-- C9: at engine start, before any command or detection is processed,
the control state has mode manual and pose equal to the configured home
position x 0, y 2.5, z 0 — matching the initial status records of the
frontend `useCamera` hook and of `App.jsx`. -/
theorem initial_state_home :
    useCameraInitialStatus.mode = "manual" ∧
    useCameraInitialStatus.position = homePose ∧
    appInitialCameraStatus.mode = "manual" ∧
    appInitialCameraStatus.position = homePose ∧
    initControlState.mode = Mode.manual ∧
    initControlState.actual = homePose ∧
    initControlState.target = homePose ∧
    initControlState.tick = 0 ∧
    homePose = { x := 0, y := 5/2, z := 0 } :=
  ⟨rfl, rfl, rfl, rfl, rfl, rfl, rfl, rfl, rfl⟩

theorem scheduledAttempts_eq (maxRetries : ℕ) :
    ∀ n r : ℕ, scheduledAttempts maxRetries n r = min n (maxRetries - r) := by
  intro n
  induction n with
  | zero => intro r; simp [scheduledAttempts]
  | succ n ih =>
      intro r
      show (if (reconnectOnClose maxRetries r).2.isSome then 1 else 0) +
        scheduledAttempts maxRetries n (reconnectOnClose maxRetries r).1 =
        min (n + 1) (maxRetries - r)
      unfold reconnectOnClose
      by_cases h : r < maxRetries
      · rw [if_pos h]
        simp only [Option.isSome_some, if_pos]
        rw [ih (r + 1)]
        omega
      · rw [if_neg h]
        simp only [Option.isSome_none, Bool.false_eq_true, if_neg,
          not_false_iff]
        rw [ih r]
        omega

/-- C10: `autoReconnect` schedules at most `maxRetries` consecutive
reconnection attempts after close events — exactly `min n maxRetries`
scheduled reconnects over `n` consecutive closes from a fresh counter —
each close that schedules does so after `2000 * retries` milliseconds
(the counter value after its increment), a close at the budget schedules
nothing, a successful open resets the counter to 0, and the default
budget is 5. -/
theorem auto_reconnect_bounded (maxRetries n r : ℕ) :
    scheduledAttempts maxRetries n 0 = min n maxRetries ∧
    (r < maxRetries →
      reconnectOnClose maxRetries r = (r + 1, some (2000 * (r + 1)))) ∧
    (maxRetries ≤ r → reconnectOnClose maxRetries r = (r, none)) ∧
    reconnectOnOpen r = 0 ∧
    defaultMaxRetries = 5 := by
  refine ⟨?_, ?_, ?_, rfl, rfl⟩
  · rw [scheduledAttempts_eq maxRetries n 0]
    omega
  · intro h
    unfold reconnectOnClose
    rw [if_pos h]
  · intro h
    unfold reconnectOnClose
    rw [if_neg (by omega)]

/-- Witness for C10: with the default budget of 5, seven consecutive
closes schedule exactly five attempts, the third attempt is delayed
6000 ms, a sixth close schedules nothing, and an open resets. -/
theorem auto_reconnect_bounded_witness :
    scheduledAttempts 5 7 0 = 5 ∧
    reconnectOnClose 5 2 = (3, some 6000) ∧
    reconnectOnClose 5 5 = (5, none) ∧
    reconnectOnOpen 3 = 0 := by
  have h1 := auto_reconnect_bounded 5 7 2
  have h2 := auto_reconnect_bounded 5 7 5
  exact ⟨h1.1.trans (by decide), h1.2.1 (by decide), h2.2.2.1 (by decide),
    h1.2.2.2.1⟩

end SpiderCamera
